import Mathlib

/-!
Verification development for the mqtt-logger repository.

The Python sources (mqtt_logger.py and query_events.py) are shallowly
embedded below: instants of the Python clocks (time.monotonic and
datetime.now) are modelled as rational numbers, the per-topic dictionaries
of the LoopDetector as total functions with the default values the code
supplies for missing keys, and the SQLite event table as a list of rows.
-/

/-! ## Rate anomaly detector (class LoopDetector, mqtt_logger.py lines 82-138) -/

/-- One emitted flood alert. The Python code formats a message carrying the
post-eviction count and the window length; we keep those fields directly. -/
structure Alert where
  topic : String
  count : ℕ
  window : ℚ
deriving DecidableEq, Repr

/-- State of LoopDetector: the dict self._counts (a missing key is modelled
as the empty list, matching setdefault(topic, [])) and the dict
self._last_alert (a missing key is modelled as none; record reads it with
get(topic, 0)). -/
structure LoopDetector where
  counts : String → List ℚ
  lastAlert : String → Option ℚ

namespace LoopDetector

/-- WINDOW_SEC = 5, sliding window length in seconds. -/
def WINDOW_SEC : ℚ := 5

/-- THRESHOLD = 10, messages per window to trigger an alert. -/
def THRESHOLD : ℕ := 10

/-- COOLDOWN_SEC = 60, suppresses repeat alerts per topic. -/
def COOLDOWN_SEC : ℚ := 60

/-- The while loop of record: pop timestamps from the front while the head
is older than the cutoff. -/
def evict (cutoff : ℚ) : List ℚ → List ℚ
  | [] => []
  | t :: ts => if t < cutoff then evict cutoff ts else t :: ts

/-- LoopDetector.record(topic), with the reading of time.monotonic() made
an explicit argument now. It appends now, evicts entries older than
now - WINDOW_SEC from the front, then tests the threshold and the cooldown;
the emitted alert (the call to self._alert) is returned as an optional
value, and on emission the last-alert time of the topic becomes now. -/
def record (st : LoopDetector) (topic : String) (now : ℚ) : LoopDetector × Option Alert :=
  let timestamps := evict (now - WINDOW_SEC) (st.counts topic ++ [now])
  let st1 : LoopDetector :=
    { counts := fun t => if t = topic then timestamps else st.counts t
      lastAlert := st.lastAlert }
  if THRESHOLD ≤ timestamps.length then
    let last := (st.lastAlert topic).getD 0
    if COOLDOWN_SEC ≤ now - last then
      ({ counts := st1.counts
         lastAlert := fun t => if t = topic then some now else st.lastAlert t },
       some { topic := topic, count := timestamps.length, window := WINDOW_SEC })
    else (st1, none)
  else (st1, none)

/-- A freshly constructed detector: both dicts are empty. -/
def detectorInit : LoopDetector :=
  { counts := fun _ => [], lastAlert := fun _ => none }

/-- Run a sequence of record calls for one topic, collecting the emitted
alerts in order. -/
def runTopic (st : LoopDetector) (topic : String) : List ℚ → LoopDetector × List Alert
  | [] => (st, [])
  | t :: ts =>
    let r := record st topic t
    let rest := runTopic r.1 topic ts
    (rest.1, r.2.toList ++ rest.2)

/-- Timestamps of events arriving at a steady rate of one per second from
start instant t0: t0, t0+1, ..., t0+(n-1). -/
def steadyTimes (t0 : ℚ) (n : ℕ) : List ℚ :=
  (List.range n).map (fun i => t0 + i)

/-- A detector state whose window for topic t already holds nine timestamps
at instant 100 and which has never alerted; used to exercise the alert
branch of record. -/
def nineAt100 : LoopDetector :=
  { counts := fun t => if t = "t" then [100, 100, 100, 100, 100, 100, 100, 100, 100] else []
    lastAlert := fun _ => none }

end LoopDetector

/-! ## JSON payloads (the json.loads call in extract_sender, mqtt_logger.py line 70)

The Python standard-library parser is modelled by a small recursive-descent
parser over the character list of the payload, using a fuel argument for
termination. It covers null, booleans, finite decimal numbers (read into ℚ),
strings with the JSON escape sequences, arrays and objects; object members
are kept in order and a lookup takes the last occurrence of a key, as a
Python dict built by json.loads does. -/

inductive Json where
  | null
  | bool (b : Bool)
  | num (q : ℚ)
  | str (s : String)
  | arr (elems : List Json)
  | obj (members : List (String × Json))

/-- The whitespace characters json.loads skips between tokens. -/
def isJsonWs (c : Char) : Bool :=
  c = ' ' || c = '\t' || c = '\n' || c = '\r'

def skipWs : List Char → List Char
  | [] => []
  | c :: cs => if isJsonWs c then skipWs cs else c :: cs

def digitVal (c : Char) : Option ℕ :=
  if '0' ≤ c ∧ c ≤ '9' then some (c.toNat - '0'.toNat) else none

/-- Consume a maximal run of decimal digits, returning their value, how many
there were, and the rest of the input. -/
def takeDigits (acc len : ℕ) : List Char → ℕ × ℕ × List Char
  | [] => (acc, len, [])
  | c :: cs =>
    match digitVal c with
    | some d => takeDigits (acc * 10 + d) (len + 1) cs
    | none => (acc, len, c :: cs)

/-- Optional exponent part of a JSON number, scaling the mantissa. -/
def parseExponent (q : ℚ) (s : List Char) : Option (ℚ × List Char) :=
  match s with
  | 'e' :: rest | 'E' :: rest =>
    match
      (match rest with
        | '+' :: r => (true, r)
        | '-' :: r => (false, r)
        | r => (true, r)) with
    | (pos, s1) =>
      match takeDigits 0 0 s1 with
      | (e, n, s2) =>
        if n = 0 then none
        else some (if pos then q * 10 ^ e else q / 10 ^ e, s2)
  | _ => some (q, s)

/-- A JSON number: optional minus, integer part without leading zeros,
optional fraction, optional exponent. -/
def parseNumber (s : List Char) : Option (ℚ × List Char) :=
  match
    (match s with
      | '-' :: r => (true, r)
      | r => (false, r)) with
  | (neg, s1) =>
    match
      (match s1 with
        | '0' :: c :: _ => (digitVal c).isNone
        | _ => true) with
    | leadOk =>
      match takeDigits 0 0 s1 with
      | (ip, ilen, s2) =>
        if ilen = 0 ∨ leadOk = false then none
        else
          match
            (match s2 with
              | '.' :: s3 =>
                match takeDigits 0 0 s3 with
                | (fp, flen, s4) =>
                  if flen = 0 then none
                  else some ((ip : ℚ) + (fp : ℚ) / 10 ^ flen, s4)
              | _ => some ((ip : ℚ), s2)) with
          | none => none
          | some (q, s5) =>
            match parseExponent q s5 with
            | none => none
            | some (q2, s6) => some (if neg then -q2 else q2, s6)

def hexVal (c : Char) : Option ℕ :=
  if '0' ≤ c ∧ c ≤ '9' then some (c.toNat - '0'.toNat)
  else if 'a' ≤ c ∧ c ≤ 'f' then some (c.toNat - 'a'.toNat + 10)
  else if 'A' ≤ c ∧ c ≤ 'F' then some (c.toNat - 'A'.toNat + 10)
  else none

/-- The single-character JSON escapes. -/
def escChar (c : Char) : Option Char :=
  match c with
  | '"' => some '"'
  | '\\' => some '\\'
  | '/' => some '/'
  | 'b' => some (Char.ofNat 8)
  | 'f' => some (Char.ofNat 12)
  | 'n' => some '\n'
  | 'r' => some '\r'
  | 't' => some '\t'
  | _ => none

/-- Body of a JSON string after the opening quote, up to and including the
closing quote. -/
def parseStringBody : ℕ → List Char → Option (List Char × List Char)
  | 0, _ => none
  | _ + 1, [] => none
  | fuel + 1, c :: rest =>
    if c = '"' then some ([], rest)
    else if c = '\\' then
      match rest with
      | 'u' :: a :: b :: c2 :: d :: rest2 =>
        match hexVal a, hexVal b, hexVal c2, hexVal d with
        | some ha, some hb, some hc, some hd =>
          match parseStringBody fuel rest2 with
          | some (cs, rem) =>
            some (Char.ofNat (((ha * 16 + hb) * 16 + hc) * 16 + hd) :: cs, rem)
          | none => none
        | _, _, _, _ => none
      | e :: rest2 =>
        match escChar e with
        | some ce =>
          match parseStringBody fuel rest2 with
          | some (cs, rem) => some (ce :: cs, rem)
          | none => none
        | none => none
      | [] => none
    else
      match parseStringBody fuel rest with
      | some (cs, rem) => some (c :: cs, rem)
      | none => none

mutual

/-- One JSON value, preceded by optional whitespace. -/
def parseValue : ℕ → List Char → Option (Json × List Char)
  | 0, _ => none
  | fuel + 1, s =>
    match skipWs s with
    | [] => none
    | c :: rest =>
      if c = 'n' then
        match rest with
        | 'u' :: 'l' :: 'l' :: r => some (Json.null, r)
        | _ => none
      else if c = 't' then
        match rest with
        | 'r' :: 'u' :: 'e' :: r => some (Json.bool true, r)
        | _ => none
      else if c = 'f' then
        match rest with
        | 'a' :: 'l' :: 's' :: 'e' :: r => some (Json.bool false, r)
        | _ => none
      else if c = '"' then
        match parseStringBody (rest.length + 1) rest with
        | some (cs, rem) => some (Json.str (String.mk cs), rem)
        | none => none
      else if c = '\x7b' then parseObjRest fuel rest
      else if c = '[' then parseArrRest fuel rest
      else
        match parseNumber (c :: rest) with
        | some (q, rem) => some (Json.num q, rem)
        | none => none

/-- Rest of an object after the opening brace. -/
def parseObjRest : ℕ → List Char → Option (Json × List Char)
  | 0, _ => none
  | fuel + 1, s =>
    match skipWs s with
    | '\x7d' :: rest => some (Json.obj [], rest)
    | s1 =>
      match parseMembers fuel s1 with
      | some (kvs, rem) => some (Json.obj kvs, rem)
      | none => none

/-- One or more key-value pairs separated by commas, consuming the closing
brace. -/
def parseMembers : ℕ → List Char → Option (List (String × Json) × List Char)
  | 0, _ => none
  | fuel + 1, s =>
    match skipWs s with
    | '"' :: rest =>
      match parseStringBody (rest.length + 1) rest with
      | some (kcs, rem) =>
        match skipWs rem with
        | ':' :: rem2 =>
          match parseValue fuel rem2 with
          | some (v, rem3) =>
            match skipWs rem3 with
            | ',' :: rem4 =>
              match parseMembers fuel rem4 with
              | some (kvs, rem5) => some ((String.mk kcs, v) :: kvs, rem5)
              | none => none
            | '\x7d' :: rem4 => some ([(String.mk kcs, v)], rem4)
            | _ => none
          | none => none
        | _ => none
      | none => none
    | _ => none

/-- Rest of an array after the opening bracket. -/
def parseArrRest : ℕ → List Char → Option (Json × List Char)
  | 0, _ => none
  | fuel + 1, s =>
    match skipWs s with
    | ']' :: rest => some (Json.arr [], rest)
    | s1 =>
      match parseElems fuel s1 with
      | some (js, rem) => some (Json.arr js, rem)
      | none => none

/-- One or more array elements separated by commas, consuming the closing
bracket. -/
def parseElems : ℕ → List Char → Option (List Json × List Char)
  | 0, _ => none
  | fuel + 1, s =>
    match parseValue fuel s with
    | some (v, rem) =>
      match skipWs rem with
      | ',' :: rem2 =>
        match parseElems fuel rem2 with
        | some (js, rem3) => some (v :: js, rem3)
        | none => none
      | ']' :: rem2 => some ([v], rem2)
      | _ => none
    | none => none

end

/-- json.loads: parse one document and require only whitespace after it.
The fuel is generous for the number of recursive calls the input length can
force. -/
def json_loads (payload : String) : Option Json :=
  match parseValue (2 * payload.length + 2) payload.data with
  | some (v, rest) => if (skipWs rest).isEmpty then some v else none
  | none => none

mutual

/-- Python repr of a decoded JSON value, used by str() for non-string
containers; numbers with denominator 1 render like Python ints, other
numeric renderings are approximate (no claim exercises them). -/
def pyRepr : Json → String
  | Json.null => "None"
  | Json.bool true => "True"
  | Json.bool false => "False"
  | Json.num q => if q.den = 1 then toString q.num else toString q
  | Json.str s => "'" ++ s ++ "'"
  | Json.arr es => "[" ++ pyReprList es ++ "]"
  | Json.obj kvs => "\x7b" ++ pyReprMembers kvs ++ "\x7d"

def pyReprList : List Json → String
  | [] => ""
  | [j] => pyRepr j
  | j :: js => pyRepr j ++ ", " ++ pyReprList js

def pyReprMembers : List (String × Json) → String
  | [] => ""
  | [(k, v)] => "'" ++ k ++ "': " ++ pyRepr v
  | (k, v) :: kvs => "'" ++ k ++ "': " ++ pyRepr v ++ ", " ++ pyReprMembers kvs

end

/-- Python str() of a decoded JSON value: the identity on strings, the
Python constant names for None and booleans, repr otherwise. -/
def pyStr : Json → String
  | Json.null => "None"
  | Json.bool true => "True"
  | Json.bool false => "False"
  | Json.str s => s
  | j => pyRepr j

/-! ## Sender extraction (extract_sender, mqtt_logger.py lines 50-79) -/

/-- The ordered candidate key names of the for-loop in extract_sender. -/
def candidateKeys : List String :=
  ["sender", "client_id", "clientId", "source", "from", "device_id"]

/-- Python dict lookup on the parsed members: the last occurrence of a key
wins, as in a dict built by json.loads. -/
def dictLookup (kvs : List (String × Json)) (k : String) : Option Json :=
  kvs.foldl (fun acc p => if p.1 = k then some p.2 else acc) none

/-- The for-loop of extract_sender: return str(data[key]) for the first
candidate key present in the dict. -/
def scanKeys : List String → List (String × Json) → Option String
  | [], _ => none
  | k :: ks, kvs =>
    match dictLookup kvs k with
    | some v => some (pyStr v)
    | none => scanKeys ks kvs

/-- extract_sender(topic, payload). Strategy 1 (topic structure) is an
explicit no-op in the source: the topic is split but nothing is returned
from it. Strategy 2 parses the payload as JSON when the payload is
non-empty and scans the candidate keys when the result is a dict; any parse
failure or non-dict result falls through to None. -/
def extract_sender (topic payload : String) : Option String :=
  if payload.isEmpty then none
  else
    match json_loads payload with
    | some (Json.obj kvs) => scanKeys candidateKeys kvs
    | _ => none

/-- Specification-side restatement of the Sender Extractor contract of
section 4.1 of the spec, for the refinement comparison: parse the payload
as a structured document; if it is a mapping, return the string form of the
value of the first present candidate key; in every other case (parse
failure, non-mapping, no candidate key, empty payload) return none. It
takes no topic at all, since the contract never consults the topic. -/
def specExtractSender (payload : String) : Option String :=
  match json_loads payload with
  | some (Json.obj kvs) => candidateKeys.findSome? (fun k => (dictLookup kvs k).map pyStr)
  | _ => none

/-! ## Ingestion pipeline (MQTTLogger.on_message, mqtt_logger.py lines 171-198)

on_message receives a message, stamps the wall clock (datetime.now) for the
row it inserts, and calls LoopDetector.record, which itself reads the
monotonic clock (time.monotonic). The two clock readings are therefore
independent inputs of the embedded handler. The SQLite insert is the only
fallible step; whether it succeeds is an explicit input (writeOk). The
blanket try/except of the source catches any exception, writes one error
log line, and returns normally. -/

/-- One inbound MQTT message, with the payload already decoded to text by
the UTF-8-or-hex policy of the handler. -/
structure InboundMsg where
  topic : String
  payload : String
  qos : ℕ
  retain : Bool

/-- One row of the mqtt_events table. The receipt timestamp is kept as the
wall-clock instant (the source stores its ISO rendering); retained is the
0-or-1 integer the source stores. -/
structure EventRow where
  timestamp : ℚ
  topic : String
  sender : Option String
  payload : String
  qos : ℕ
  retained : ℕ
deriving DecidableEq, Repr

/-- The long-lived state of MQTTLogger: the event table and the detector. -/
structure LoggerState where
  events : List EventRow
  detector : LoopDetector

/-- What one on_message call produces: the new state, any flood alert, any
exception propagated to the caller, and any error log line. -/
structure HandleResult where
  state : LoggerState
  alert : Option Alert
  raised : Option String
  logged : Option String

/-- A freshly constructed MQTTLogger: empty table, fresh detector. -/
def loggerInit : LoggerState :=
  { events := [], detector := LoopDetector.detectorInit }

/-- The body of the try block of on_message: stamp wallNow, extract the
sender, insert the row (the one step that can fail), then feed the detector
with its own monotonic reading monoNow. A storage failure aborts the body
before the detector is fed. -/
def processMessage (writeOk : Bool) (st : LoggerState) (wallNow monoNow : ℚ)
    (msg : InboundMsg) : Except String (LoggerState × Option Alert) :=
  let sender := extract_sender msg.topic msg.payload
  let row : EventRow :=
    { timestamp := wallNow, topic := msg.topic, sender := sender,
      payload := msg.payload, qos := msg.qos,
      retained := if msg.retain then 1 else 0 }
  match (if writeOk then Except.ok (st.events ++ [row])
         else Except.error "storage failure" : Except String (List EventRow)) with
  | Except.error e => Except.error e
  | Except.ok evs =>
    match LoopDetector.record st.detector msg.topic monoNow with
    | (det, alert) => Except.ok ({ events := evs, detector := det }, alert)

/-- MQTTLogger.on_message: the try/except wrapper. An exception from the
body is caught and logged; nothing is ever propagated to the caller and the
state is left as it was before the message. -/
def on_message (writeOk : Bool) (st : LoggerState) (wallNow monoNow : ℚ)
    (msg : InboundMsg) : HandleResult :=
  match processMessage writeOk st wallNow monoNow msg with
  | Except.ok (st', alert) =>
    { state := st', alert := alert, raised := none, logged := none }
  | Except.error e =>
    { state := st, alert := none, raised := none,
      logged := some ("Error processing message: " ++ e) }

/-! ## Query pattern translation (query_events, query_events.py lines 77-116)

The tool translates an MQTT topic pattern into a SQL LIKE pattern with
topic_pattern.replace('#', '%').replace('+', '%'); with one-character
arguments Python str.replace is exactly a character map. The LIKE operator
of SQLite is matched here: % matches any run of characters, _ matches one
character, and ASCII letters compare case-insensitively. -/

/-- Python str.replace with one-character arguments. -/
def replaceChar (src dst : Char) (s : String) : String :=
  String.mk (s.data.map (fun c => if c = src then dst else c))

/-- The wildcard translation of query_events: both MQTT wildcards become
the substring-style SQL wildcard. -/
def mqttToSqlPattern (p : String) : String :=
  replaceChar '+' '%' (replaceChar '#' '%' p)

/-- ASCII lower-casing, as the default SQLite LIKE applies to both sides. -/
def asciiLower (c : Char) : Char :=
  if 'A' ≤ c ∧ c ≤ 'Z' then Char.ofNat (c.toNat + 32) else c

/-- SQLite LIKE matching over character lists, with fuel for termination:
the fuel bounds the recursion, which shortens pattern or subject on every
call. -/
def likeMatch : ℕ → List Char → List Char → Bool
  | 0, _, _ => false
  | _ + 1, [], [] => true
  | _ + 1, [], _ :: _ => false
  | fuel + 1, p :: ps, s =>
    if p = '%' then
      likeMatch fuel ps s ||
        (match s with
         | [] => false
         | _ :: s2 => likeMatch fuel (p :: ps) s2)
    else
      match s with
      | [] => false
      | c :: s2 =>
        if p = '_' then likeMatch fuel ps s2
        else (asciiLower p == asciiLower c) && likeMatch fuel ps s2

/-- topic LIKE pattern, as evaluated by SQLite. -/
def sqlLike (pattern s : String) : Bool :=
  likeMatch (pattern.length + s.length + 1) pattern.data s.data

/-- The WHERE clause the topic pattern contributes to the query of
query_events: keep the rows whose topic matches the translated pattern (the
query then orders by timestamp and applies a limit, which do not affect
which topics can be selected). -/
def topicFilter (pattern : Option String) (rows : List EventRow) : List EventRow :=
  match pattern with
  | some p => rows.filter (fun r => sqlLike (mqttToSqlPattern p) r.topic)
  | none => rows

/-- A stored event for topic home/kitchen/temp. -/
def kitchenRow : EventRow :=
  { timestamp := 0, topic := "home/kitchen/temp", sender := none,
    payload := "", qos := 0, retained := 0 }

namespace LoopDetector

/-! ### Basic lemmas about evict, record and runTopic -/

theorem evict_eq_self_of_all_ge (c : ℚ) (l : List ℚ) (h : ∀ x ∈ l, c ≤ x) :
    evict c l = l := by
  cases l with
  | nil => rfl
  | cons t ts =>
    have ht : c ≤ t := h t (List.mem_cons_self t ts)
    simp [evict, not_lt.mpr ht]

/-- On a sorted list the front-eviction loop removes exactly the entries
below the cutoff. -/
theorem evict_eq_filter_of_sorted (c : ℚ) (l : List ℚ) (hl : l.Sorted (· ≤ ·)) :
    evict c l = l.filter (fun x => decide (c ≤ x)) := by
  induction l with
  | nil => rfl
  | cons t ts ih =>
    rcases List.sorted_cons.mp hl with ⟨hts, hsort⟩
    by_cases h : t < c
    · have : (decide (c ≤ t)) = false := by simp [not_le.mpr h]
      simp [evict, h, this, ih hsort]
    · have hct : c ≤ t := not_lt.mp h
      have : ∀ x ∈ ts, (fun x => decide (c ≤ x)) x = true := by
        intro x hx
        simpa using le_trans hct (hts x hx)
      simp [evict, h, hct, List.filter_eq_self.mpr this]

theorem record_counts_self (st : LoopDetector) (topic : String) (now : ℚ) :
    (record st topic now).1.counts topic
      = evict (now - WINDOW_SEC) (st.counts topic ++ [now]) := by
  simp only [record]
  split <;> (try split) <;> simp

theorem record_counts_other (st : LoopDetector) (topic : String) (now : ℚ)
    (t' : String) (h : t' ≠ topic) :
    (record st topic now).1.counts t' = st.counts t' := by
  simp only [record]
  split <;> (try split) <;> simp [h]

theorem record_lastAlert_other (st : LoopDetector) (topic : String) (now : ℚ)
    (t' : String) (h : t' ≠ topic) :
    (record st topic now).1.lastAlert t' = st.lastAlert t' := by
  simp only [record]
  split <;> (try split) <;> simp [h]

/-- Below the threshold the call emits nothing and leaves every last-alert
time unchanged. -/
theorem record_quiet (st : LoopDetector) (topic : String) (now : ℚ)
    (h : (evict (now - WINDOW_SEC) (st.counts topic ++ [now])).length < THRESHOLD) :
    (record st topic now).2 = none ∧ (record st topic now).1.lastAlert = st.lastAlert := by
  simp only [record]
  rw [if_neg (not_le.mpr h)]
  exact ⟨rfl, rfl⟩

/-- At or above the threshold but within the cooldown the call emits
nothing and leaves every last-alert time unchanged. -/
theorem record_cooldown_blocked (st : LoopDetector) (topic : String) (now : ℚ)
    (hcd : now - (st.lastAlert topic).getD 0 < COOLDOWN_SEC) :
    (record st topic now).2 = none ∧ (record st topic now).1.lastAlert = st.lastAlert := by
  simp only [record]
  split
  · rw [if_neg (not_le.mpr hcd)]
    exact ⟨rfl, rfl⟩
  · exact ⟨rfl, rfl⟩

/-- At or above the threshold with the cooldown elapsed the call emits one
alert carrying the post-eviction count and the window length, and the
last-alert time of the topic becomes now. -/
theorem record_fires (st : LoopDetector) (topic : String) (now : ℚ)
    (hlen : THRESHOLD ≤ (evict (now - WINDOW_SEC) (st.counts topic ++ [now])).length)
    (hcd : COOLDOWN_SEC ≤ now - (st.lastAlert topic).getD 0) :
    (record st topic now).2
        = some { topic := topic
                 count := (evict (now - WINDOW_SEC) (st.counts topic ++ [now])).length
                 window := WINDOW_SEC }
      ∧ (record st topic now).1.lastAlert topic = some now := by
  simp only [record]
  rw [if_pos hlen, if_pos hcd]
  simp

theorem runTopic_nil (st : LoopDetector) (topic : String) :
    runTopic st topic [] = (st, []) := rfl

theorem runTopic_cons (st : LoopDetector) (topic : String) (t : ℚ) (ts : List ℚ) :
    runTopic st topic (t :: ts)
      = ((runTopic (record st topic t).1 topic ts).1,
         (record st topic t).2.toList ++ (runTopic (record st topic t).1 topic ts).2) := rfl

theorem runTopic_append (st : LoopDetector) (topic : String) (l₁ l₂ : List ℚ) :
    runTopic st topic (l₁ ++ l₂)
      = ((runTopic (runTopic st topic l₁).1 topic l₂).1,
         (runTopic st topic l₁).2 ++ (runTopic (runTopic st topic l₁).1 topic l₂).2) := by
  induction l₁ generalizing st with
  | nil => simp [runTopic_nil]
  | cons t ts ih => simp [runTopic_cons, ih]

/-- A run whose calls never evict anything and never fill the window: every
timestamp ever seen stays within the window of every call, and the total
count stays below the threshold. The window accumulates all the timestamps,
nothing is emitted, and no last-alert time moves. -/
theorem runTopic_quiet (topic : String) (ts : List ℚ) :
    ∀ st : LoopDetector,
      (∀ x ∈ st.counts topic ++ ts, ∀ now ∈ ts, now - WINDOW_SEC ≤ x) →
      (st.counts topic ++ ts).length < THRESHOLD →
      (runTopic st topic ts).1.counts topic = st.counts topic ++ ts
        ∧ (runTopic st topic ts).1.lastAlert = st.lastAlert
        ∧ (runTopic st topic ts).2 = [] := by
  induction ts with
  | nil => intro st _ _; simp [runTopic_nil]
  | cons t rest ih =>
    intro st hwin hlen
    have hwt : ∀ x ∈ st.counts topic ++ [t], t - WINDOW_SEC ≤ x := by
      intro x hx
      refine hwin x ?_ t (List.mem_cons_self t rest)
      simp only [List.mem_append, List.mem_cons, List.not_mem_nil, or_false] at hx ⊢
      tauto
    have hkeep := evict_eq_self_of_all_ge (t - WINDOW_SEC) (st.counts topic ++ [t]) hwt
    have hlen1 : (evict (t - WINDOW_SEC) (st.counts topic ++ [t])).length < THRESHOLD := by
      rw [hkeep]
      simp only [List.length_append, List.length_cons, List.length_nil] at hlen ⊢
      omega
    obtain ⟨hnone, halert⟩ := record_quiet st topic t hlen1
    have hcounts : (record st topic t).1.counts topic = st.counts topic ++ [t] := by
      rw [record_counts_self, hkeep]
    have hw : ∀ x ∈ (record st topic t).1.counts topic ++ rest, ∀ now ∈ rest,
        now - WINDOW_SEC ≤ x := by
      intro x hx now hnow
      rw [hcounts] at hx
      refine hwin x ?_ now (List.mem_cons_of_mem t hnow)
      simp only [List.mem_append, List.mem_cons, List.not_mem_nil, or_false] at hx ⊢
      tauto
    have hl : ((record st topic t).1.counts topic ++ rest).length < THRESHOLD := by
      rw [hcounts]
      simp only [List.length_append, List.length_cons, List.length_nil] at hlen ⊢
      omega
    obtain ⟨ih1, ih2, ih3⟩ := ih (record st topic t).1 hw hl
    refine ⟨?_, ?_, ?_⟩
    · rw [runTopic_cons]
      dsimp only
      rw [ih1, hcounts, List.append_assoc]
      rfl
    · rw [runTopic_cons]
      dsimp only
      rw [ih2, halert]
    · rw [runTopic_cons]
      dsimp only
      rw [ih3, hnone]
      rfl

/-- While a topic has never alerted and every call happens less than
COOLDOWN_SEC after the zero point of the monotonic clock (the default value
the code takes for a missing last-alert entry), no alert can be emitted. -/
theorem runTopic_early_no_alert (topic : String) (ts : List ℚ) :
    ∀ st : LoopDetector,
      st.lastAlert topic = none →
      (∀ t ∈ ts, t < COOLDOWN_SEC) →
      (runTopic st topic ts).2 = []
        ∧ (runTopic st topic ts).1.lastAlert = st.lastAlert := by
  induction ts with
  | nil => intro st _ _; simp [runTopic_nil]
  | cons t ts ih =>
    intro st hla hts
    have hcd : t - (st.lastAlert topic).getD 0 < COOLDOWN_SEC := by
      rw [hla]
      simpa using hts t (List.mem_cons_self t ts)
    obtain ⟨hnone, halert⟩ := record_cooldown_blocked st topic t hcd
    have hnext := ih (record st topic t).1 (by rw [halert]; exact hla)
      (fun x hx => hts x (List.mem_cons_of_mem t hx))
    rw [runTopic_cons]
    refine ⟨?_, ?_⟩
    · rw [hnext.1, hnone]
      simp
    · rw [hnext.2, halert]

/-- Front eviction of a sorted window with the new timestamp appended keeps
exactly the entries at or above the cutoff; the appended timestamp itself is
assumed to clear the cutoff (which now - WINDOW_SEC always does). -/
theorem evict_append_singleton_of_sorted (c : ℚ) (l : List ℚ) (x : ℚ)
    (hl : l.Sorted (· ≤ ·)) (hx : c ≤ x) :
    evict c (l ++ [x]) = (l ++ [x]).filter (fun t => decide (c ≤ t)) := by
  induction l with
  | nil => simp [evict, not_lt.mpr hx, hx]
  | cons t ts ih =>
    rcases List.sorted_cons.mp hl with ⟨hts, hsort⟩
    by_cases h : t < c
    · have hd : (decide (c ≤ t)) = false := by simp [not_le.mpr h]
      simp only [List.cons_append, evict, if_pos h, List.filter_cons, hd]
      exact ih hsort
    · have hct : c ≤ t := not_lt.mp h
      have hall : ∀ y ∈ ts ++ [x], (fun t => decide (c ≤ t)) y = true := by
        intro y hy
        rcases List.mem_append.mp hy with h' | h'
        · simpa using le_trans hct (hts y h')
        · simp at h'
          subst h'
          simpa using hx
      simp only [List.cons_append, evict, if_neg h, List.filter_cons]
      rw [List.filter_eq_self.mpr hall]
      simp [hct]

/-- Claim C2: on every call record(topic, observed_at), entries older than
observed_at - WINDOW_SEC are evicted from the front of the (monotonically
non-decreasing) sequence, so after the call the window of the topic holds
exactly the recorded timestamps at least observed_at - WINDOW_SEC. -/
theorem record_window_holds_exactly_recent (st : LoopDetector) (topic : String) (now : ℚ)
    (h : (st.counts topic).Sorted (· ≤ ·)) :
    (record st topic now).1.counts topic
      = (st.counts topic ++ [now]).filter (fun x => decide (now - WINDOW_SEC ≤ x)) := by
  rw [record_counts_self]
  exact evict_append_singleton_of_sorted _ _ _ h
    (sub_le_self now (by norm_num [WINDOW_SEC]))

/-- Witness for C2, the eviction-correctness scenario of the spec: five
events at 0,1,2,3,4, then one more at 10 (more than the 5-second window
later): exactly one timestamp is left in the window of the topic. -/
theorem record_window_holds_exactly_recent_witness :
    (record (runTopic detectorInit "t" [0, 1, 2, 3, 4]).1 "t" 10).1.counts "t" = [10] := by
  have hwin : ∀ x ∈ detectorInit.counts "t" ++ [0, 1, 2, 3, 4],
      ∀ now ∈ ([0, 1, 2, 3, 4] : List ℚ), now - WINDOW_SEC ≤ x := by
    intro x hx now hnow
    simp only [detectorInit, List.nil_append, List.mem_cons, List.not_mem_nil, or_false] at hx hnow
    rcases hx with rfl | rfl | rfl | rfl | rfl <;>
      rcases hnow with rfl | rfl | rfl | rfl | rfl <;> norm_num [WINDOW_SEC]
  have hlen : (detectorInit.counts "t" ++ [0, 1, 2, 3, 4]).length < THRESHOLD := by
    simp [detectorInit, THRESHOLD]
  have h5 := runTopic_quiet "t" [0, 1, 2, 3, 4] detectorInit hwin hlen
  have hc : (runTopic detectorInit "t" [0, 1, 2, 3, 4]).1.counts "t" = [0, 1, 2, 3, 4] := by
    rw [h5.1]
    simp [detectorInit]
  have hs : ((runTopic detectorInit "t" [0, 1, 2, 3, 4]).1.counts "t").Sorted (· ≤ ·) := by
    rw [hc]
    norm_num [List.sorted_cons]
  have := record_window_holds_exactly_recent
    (runTopic detectorInit "t" [0, 1, 2, 3, 4]).1 "t" 10 hs
  rw [this, hc]
  norm_num [WINDOW_SEC, List.filter]

/-- Claim C3: record emits an alert iff the post-eviction count reaches the
threshold and the elapsed time since the last alert of the topic (or since
the zero point of the monotonic clock, if the topic never alerted) is at
least the cooldown; the alert carries the current count and the window
length, and the moment becomes the new last-alert time of the topic. -/
theorem record_alert_iff_threshold_and_cooldown (st : LoopDetector) (topic : String) (now : ℚ) :
    (((record st topic now).2).isSome ↔
      THRESHOLD ≤ (evict (now - WINDOW_SEC) (st.counts topic ++ [now])).length
        ∧ COOLDOWN_SEC ≤ now - (st.lastAlert topic).getD 0)
    ∧ ∀ a : Alert, (record st topic now).2 = some a →
        a.topic = topic
          ∧ a.count = (evict (now - WINDOW_SEC) (st.counts topic ++ [now])).length
          ∧ a.window = WINDOW_SEC
          ∧ (record st topic now).1.lastAlert topic = some now := by
  by_cases hlen : THRESHOLD ≤ (evict (now - WINDOW_SEC) (st.counts topic ++ [now])).length
  · by_cases hcd : COOLDOWN_SEC ≤ now - (st.lastAlert topic).getD 0
    · obtain ⟨hsome, hla⟩ := record_fires st topic now hlen hcd
      constructor
      · rw [hsome]
        simp [hlen, hcd]
      · intro a ha
        rw [hsome] at ha
        obtain rfl := (Option.some_inj.mp ha).symm
        exact ⟨rfl, rfl, rfl, hla⟩
    · obtain ⟨hnone, _⟩ := record_cooldown_blocked st topic now (not_le.mp hcd)
      constructor
      · rw [hnone]
        simp [hcd]
      · intro a ha
        rw [hnone] at ha
        exact absurd ha (by simp)
  · obtain ⟨hnone, _⟩ := record_quiet st topic now (not_le.mp hlen)
    constructor
    · rw [hnone]
      simp [hlen]
    · intro a ha
      rw [hnone] at ha
      exact absurd ha (by simp)

/-- Witness for C3: from nineAt100, a tenth call at instant 100 emits the
alert carrying count 10 and window length 5, and the last-alert time of the
topic becomes 100. -/
theorem record_alert_iff_threshold_and_cooldown_witness :
    (record nineAt100 "t" 100).1.lastAlert "t" = some 100 := by
  have hkeep : evict (100 - WINDOW_SEC) (nineAt100.counts "t" ++ [100])
      = nineAt100.counts "t" ++ [100] := by
    apply evict_eq_self_of_all_ge
    intro x hx
    simp [nineAt100] at hx
    subst hx
    norm_num [WINDOW_SEC]
  have hlen : THRESHOLD ≤ (evict (100 - WINDOW_SEC) (nineAt100.counts "t" ++ [100])).length := by
    rw [hkeep]
    simp [nineAt100, THRESHOLD]
  have hcd : COOLDOWN_SEC ≤ (100 : ℚ) - (nineAt100.lastAlert "t").getD 0 := by
    norm_num [nineAt100, COOLDOWN_SEC]
  have hsome := (record_fires nineAt100 "t" 100 hlen hcd).1
  exact ((record_alert_iff_threshold_and_cooldown nineAt100 "t" 100).2 _ hsome).2.2.2

/-- Claim C9: record touches only the state of the topic it is called with;
the windows and last-alert times of every other topic are unchanged. -/
theorem record_frame_other_topics (st : LoopDetector) (topic : String) (now : ℚ)
    (t' : String) (h : t' ≠ topic) :
    (record st topic now).1.counts t' = st.counts t'
      ∧ (record st topic now).1.lastAlert t' = st.lastAlert t' :=
  ⟨record_counts_other st topic now t' h, record_lastAlert_other st topic now t' h⟩

/-- Witness for C9: a record call for topic a leaves the state of topic b
untouched. -/
theorem record_frame_other_topics_witness :
    (record detectorInit "a" 0).1.counts "b" = detectorInit.counts "b"
      ∧ (record detectorInit "a" 0).1.lastAlert "b" = detectorInit.lastAlert "b" :=
  record_frame_other_topics detectorInit "a" 0 "b" (by decide)

/-! ### The steady-rate run (claim C7) -/

theorem filter_ge_range' (b : ℕ) :
    ∀ (n a : ℕ), (List.range' a n).filter (fun j => decide (b ≤ j))
      = List.range' (max a b) (a + n - max a b) := by
  intro n
  induction n with
  | zero =>
    intro a
    have h : a + 0 - max a b = 0 := by omega
    rw [h]
    rfl
  | succ n ih =>
    intro a
    rw [List.range'_succ]
    by_cases hab : b ≤ a
    · have h1 : max (a + 1) b = a + 1 := by omega
      have h2 : max a b = a := by omega
      have h3 : a + 1 + n - (a + 1) = n := by omega
      have h4 : a + (n + 1) - a = n + 1 := by omega
      simp only [List.filter_cons, decide_eq_true_eq, if_pos hab, ih (a + 1), h1, h2, h3, h4]
      rw [List.range'_succ]
    · have h1 : max (a + 1) b = b := by omega
      have h2 : max a b = b := by omega
      have h3 : a + 1 + n - b = a + (n + 1) - b := by omega
      simp only [List.filter_cons, decide_eq_true_eq, if_neg hab, ih (a + 1), h1, h2, h3]

/-- Window contents along the steady one-per-second run: after k calls the
window of the topic holds the mapped index range from k - 6 to k - 1 (so at
most six entries), no alert has been emitted, and no last-alert time has
been set. -/
theorem steady_window (topic : String) (t0 : ℚ) :
    ∀ k : ℕ,
      (runTopic detectorInit topic (steadyTimes t0 k)).1.counts topic
          = (List.range' (k - 6) (k - (k - 6))).map (fun i : ℕ => t0 + (i : ℚ))
        ∧ (runTopic detectorInit topic (steadyTimes t0 k)).1.lastAlert = detectorInit.lastAlert
        ∧ (runTopic detectorInit topic (steadyTimes t0 k)).2 = [] := by
  intro k
  induction k with
  | zero => simp [steadyTimes, runTopic_nil, detectorInit]
  | succ k ih =>
    obtain ⟨ihc, ihl, iha⟩ := ih
    have hsnoc : steadyTimes t0 (k + 1) = steadyTimes t0 k ++ [t0 + (k : ℚ)] := by
      simp [steadyTimes, List.range_succ]
    set stk := (runTopic detectorInit topic (steadyTimes t0 k)).1 with hstk
    have happ : stk.counts topic ++ [t0 + (k : ℚ)]
        = (List.range' (k - 6) (k - (k - 6) + 1)).map (fun i : ℕ => t0 + (i : ℚ)) := by
      rw [ihc, List.range'_concat]
      have hsum : k - 6 + 1 * (k - (k - 6)) = k := by omega
      simp [hsum]
    have hsorted : ((List.range' (k - 6) (k - (k - 6) + 1)).map
        (fun i : ℕ => t0 + (i : ℚ))).Sorted (· ≤ ·) := by
      have hmono : ∀ a b : ℕ, a < b →
          (fun i : ℕ => t0 + (i : ℚ)) a ≤ (fun i : ℕ => t0 + (i : ℚ)) b := by
        intro a b hab
        dsimp only
        have : (a : ℚ) ≤ (b : ℚ) := by exact_mod_cast le_of_lt hab
        linarith
      exact List.Pairwise.map _ hmono (List.pairwise_lt_range' _ _)
    have hpred : (fun x => decide (t0 + (k : ℚ) - WINDOW_SEC ≤ x)) ∘ (fun i : ℕ => (t0 + i : ℚ))
        = (fun j : ℕ => decide (k - 5 ≤ j)) := by
      funext j
      simp only [Function.comp_apply]
      apply decide_eq_decide.mpr
      simp only [WINDOW_SEC]
      constructor
      · intro h
        have h2 : (k : ℚ) ≤ (j : ℚ) + 5 := by linarith
        have h3 : k ≤ j + 5 := by exact_mod_cast h2
        omega
      · intro h
        have h2 : k ≤ j + 5 := by omega
        have h3 : (k : ℚ) ≤ (j : ℚ) + 5 := by exact_mod_cast h2
        linarith
    have hevict : evict (t0 + (k : ℚ) - WINDOW_SEC) (stk.counts topic ++ [t0 + (k : ℚ)])
        = (List.range' ((k + 1) - 6) ((k + 1) - ((k + 1) - 6))).map (fun i : ℕ => t0 + (i : ℚ)) := by
      rw [happ, evict_eq_filter_of_sorted _ _ hsorted, List.filter_map, hpred,
        filter_ge_range' (k - 5) (k - (k - 6) + 1) (k - 6)]
      have h1 : max (k - 6) (k - 5) = (k + 1) - 6 := by omega
      rw [h1]
      have h2 : k - 6 + (k - (k - 6) + 1) - (k + 1 - 6) = (k + 1) - ((k + 1) - 6) := by omega
      rw [h2]
    have hshort : (evict (t0 + (k : ℚ) - WINDOW_SEC)
        (stk.counts topic ++ [t0 + (k : ℚ)])).length < THRESHOLD := by
      rw [hevict]
      simp only [List.length_map, List.length_range', THRESHOLD]
      omega
    obtain ⟨hnone, halert⟩ := record_quiet stk topic (t0 + (k : ℚ)) hshort
    have hcounts : (record stk topic (t0 + (k : ℚ))).1.counts topic
        = (List.range' ((k + 1) - 6) ((k + 1) - ((k + 1) - 6))).map (fun i : ℕ => t0 + (i : ℚ)) := by
      rw [record_counts_self, hevict]
    rw [hsnoc, runTopic_append]
    refine ⟨?_, ?_, ?_⟩
    · rw [← hstk, runTopic_cons]
      dsimp only
      rw [runTopic_nil]
      exact hcounts
    · rw [← hstk, runTopic_cons]
      dsimp only
      rw [runTopic_nil]
      dsimp only
      rw [halert, ihl]
    · rw [← hstk, runTopic_cons]
      dsimp only
      rw [runTopic_nil, iha, hnone]
      rfl

/-- Claim C7: with window 5s, threshold 10 and cooldown 60s, events arriving
for one topic at a steady rate of one per second never trigger an alert: no
trailing 5-second window ever holds more than 6 of the timestamps, which is
below the threshold of 10. -/
theorem steady_rate_never_alerts (topic : String) (t0 : ℚ) (n : ℕ) :
    (runTopic detectorInit topic (steadyTimes t0 n)).2 = []
      ∧ ((runTopic detectorInit topic (steadyTimes t0 n)).1.counts topic).length ≤ 6 := by
  obtain ⟨hc, _, ha⟩ := steady_window topic t0 n
  refine ⟨ha, ?_⟩
  rw [hc]
  simp only [List.length_map, List.length_range']
  omega

/-! ### The flood scenario (claim C1) -/

/-- Counterexample to claim C1 as stated: ten record calls for one topic,
all at monotonic instant 0 (trivially within a 5-second span), emit zero
alerts, not exactly one. The code compares now against the default
last-alert value 0 for a never-alerted topic, so within the first
COOLDOWN_SEC of the monotonic clock the cooldown test fails and no alert
can fire. -/
theorem flood_alert_once_counterexample :
    ([(0 : ℚ), 0, 0, 0, 0, 0, 0, 0, 0, 0].length = 10)
      ∧ (runTopic detectorInit "t" [0, 0, 0, 0, 0, 0, 0, 0, 0, 0]).2.length = 0 := by
  refine ⟨rfl, ?_⟩
  have hts : ∀ x ∈ ([0, 0, 0, 0, 0, 0, 0, 0, 0, 0] : List ℚ), x < COOLDOWN_SEC := by
    intro x hx
    simp at hx
    subst hx
    norm_num [COOLDOWN_SEC]
  have h := runTopic_early_no_alert "t" [0, 0, 0, 0, 0, 0, 0, 0, 0, 0] detectorInit rfl hts
  rw [h.1]
  rfl

/-- Claim C1 as amended: provided the tenth call happens at least
COOLDOWN_SEC after the zero point of the monotonic clock (the default
last-alert value for a never-alerted topic), ten record calls for one topic
within a 5-second span emit exactly one alert — on the tenth call — and an
eleventh call immediately afterwards (still within the window span) emits
no second alert because the cooldown is active. -/
theorem flood_alert_once_with_cooldown (topic : String)
    (t1 t2 t3 t4 t5 t6 t7 t8 t9 t10 t11 : ℚ)
    (h1 : t1 ≤ t2) (h2 : t2 ≤ t3) (h3 : t3 ≤ t4) (h4 : t4 ≤ t5) (h5 : t5 ≤ t6)
    (h6 : t6 ≤ t7) (h7 : t7 ≤ t8) (h8 : t8 ≤ t9) (h9 : t9 ≤ t10) (h10 : t10 ≤ t11)
    (hspan : t10 - t1 ≤ WINDOW_SEC) (hspan' : t11 - t1 ≤ WINDOW_SEC)
    (hcool : COOLDOWN_SEC ≤ t10) :
    (runTopic detectorInit topic [t1, t2, t3, t4, t5, t6, t7, t8, t9, t10]).2.length = 1
      ∧ (runTopic detectorInit topic
          [t1, t2, t3, t4, t5, t6, t7, t8, t9, t10, t11]).2.length = 1 := by
  have hwin : ∀ x ∈ detectorInit.counts topic ++ [t1, t2, t3, t4, t5, t6, t7, t8, t9],
      ∀ now ∈ ([t1, t2, t3, t4, t5, t6, t7, t8, t9] : List ℚ), now - WINDOW_SEC ≤ x := by
    intro x hx now hnow
    simp only [detectorInit, List.nil_append, List.mem_cons, List.not_mem_nil,
      or_false] at hx hnow
    rcases hx with rfl | rfl | rfl | rfl | rfl | rfl | rfl | rfl | rfl <;>
      rcases hnow with rfl | rfl | rfl | rfl | rfl | rfl | rfl | rfl | rfl <;> linarith
  have hlen9 : (detectorInit.counts topic ++ [t1, t2, t3, t4, t5, t6, t7, t8, t9]).length
      < THRESHOLD := by
    simp [detectorInit, THRESHOLD]
  obtain ⟨hq1, hq2, hq3⟩ :=
    runTopic_quiet topic [t1, t2, t3, t4, t5, t6, t7, t8, t9] detectorInit hwin hlen9
  set st9 := (runTopic detectorInit topic [t1, t2, t3, t4, t5, t6, t7, t8, t9]).1 with hst9
  have hc9 : st9.counts topic = [t1, t2, t3, t4, t5, t6, t7, t8, t9] := by
    rw [hq1]
    simp [detectorInit]
  have hl9 : st9.lastAlert topic = none := by
    rw [hq2]
    rfl
  have hkeep10 : evict (t10 - WINDOW_SEC) (st9.counts topic ++ [t10])
      = [t1, t2, t3, t4, t5, t6, t7, t8, t9] ++ [t10] := by
    rw [hc9]
    apply evict_eq_self_of_all_ge
    intro x hx
    simp only [List.mem_append, List.mem_cons, List.not_mem_nil, or_false] at hx
    rcases hx with (rfl | rfl | rfl | rfl | rfl | rfl | rfl | rfl | rfl) | rfl <;> linarith
  have hlen10 : THRESHOLD ≤ (evict (t10 - WINDOW_SEC) (st9.counts topic ++ [t10])).length := by
    rw [hkeep10]
    simp [THRESHOLD]
  have hcd10 : COOLDOWN_SEC ≤ t10 - (st9.lastAlert topic).getD 0 := by
    rw [hl9]
    simpa using hcool
  obtain ⟨hfire, hla10⟩ := record_fires st9 topic t10 hlen10 hcd10
  have hrun10 : runTopic detectorInit topic [t1, t2, t3, t4, t5, t6, t7, t8, t9, t10]
      = ((record st9 topic t10).1, (record st9 topic t10).2.toList) := by
    have hsplit : [t1, t2, t3, t4, t5, t6, t7, t8, t9, t10]
        = [t1, t2, t3, t4, t5, t6, t7, t8, t9] ++ [t10] := by simp
    rw [hsplit, runTopic_append, ← hst9, runTopic_cons, runTopic_nil, hq3]
    simp
  have hcd11 : t11 - ((record st9 topic t10).1.lastAlert topic).getD 0 < COOLDOWN_SEC := by
    rw [hla10]
    have hWC : WINDOW_SEC < COOLDOWN_SEC := by norm_num [WINDOW_SEC, COOLDOWN_SEC]
    simp only [Option.getD_some]
    linarith
  obtain ⟨hnone11, _⟩ := record_cooldown_blocked (record st9 topic t10).1 topic t11 hcd11
  have hrun11 : (runTopic detectorInit topic
      [t1, t2, t3, t4, t5, t6, t7, t8, t9, t10, t11]).2
      = (record st9 topic t10).2.toList
          ++ (record (record st9 topic t10).1 topic t11).2.toList := by
    have hsplit : [t1, t2, t3, t4, t5, t6, t7, t8, t9, t10, t11]
        = [t1, t2, t3, t4, t5, t6, t7, t8, t9, t10] ++ [t11] := by simp
    rw [hsplit, runTopic_append, hrun10, runTopic_cons, runTopic_nil]
    simp
  constructor
  · rw [hrun10, hfire]
    rfl
  · rw [hrun11, hfire, hnone11]
    rfl

/-- Witness for the amended C1: ten calls at instant 100 (within a 5-second
span, with the cooldown eligibility satisfied since 60 ≤ 100) emit exactly
one alert, and an eleventh call at instant 100 emits no second alert. -/
theorem flood_alert_once_with_cooldown_witness :
    (runTopic detectorInit "w"
        [100, 100, 100, 100, 100, 100, 100, 100, 100, 100]).2.length = 1
      ∧ (runTopic detectorInit "w"
          [100, 100, 100, 100, 100, 100, 100, 100, 100, 100, 100]).2.length = 1 :=
  flood_alert_once_with_cooldown "w" 100 100 100 100 100 100 100 100 100 100 100
    (le_refl _) (le_refl _) (le_refl _) (le_refl _) (le_refl _) (le_refl _) (le_refl _)
    (le_refl _) (le_refl _) (le_refl _)
    (by norm_num [WINDOW_SEC]) (by norm_num [WINDOW_SEC]) (by norm_num [COOLDOWN_SEC])

end LoopDetector

/-! ### Sender extraction (claims C6 and C10) -/

theorem scanKeys_eq_findSome (kvs : List (String × Json)) :
    ∀ ks : List String,
      scanKeys ks kvs = ks.findSome? (fun k => (dictLookup kvs k).map pyStr) := by
  intro ks
  induction ks with
  | nil => rfl
  | cons k ks ih =>
    cases h : dictLookup kvs k with
    | none => simp [scanKeys, h, ih, List.findSome?]
    | some v => simp [scanKeys, h, List.findSome?]

theorem extract_sender_eq_spec (topic payload : String) :
    extract_sender topic payload = specExtractSender payload := by
  by_cases h : payload.isEmpty
  · have hp : payload = "" := (String.isEmpty_iff payload).mp h
    subst hp
    rfl
  · simp only [extract_sender, specExtractSender, if_neg h]
    cases hj : json_loads payload with
    | none => rfl
    | some j => cases j <;> simp [scanKeys_eq_findSome]

/-- Claim C6: the Sender Extractor never derives a sender from topic
segments (its result does not depend on the topic, matching the
specification-side contract that takes no topic); when the payload parses
as a mapping it returns the string form of the first present candidate key,
and it returns none for an empty payload, an unparseable payload, a
non-mapping payload or a mapping without candidate keys. In particular the
payload with client_id sensor-7 yields sensor-7, and the payloads with no
candidate key, the non-JSON text and the empty payload yield none. Being a
total Lean function, it never raises. -/
theorem extract_sender_contract :
    (∀ topic topic' payload : String,
        extract_sender topic payload = extract_sender topic' payload)
      ∧ (∀ topic payload : String, extract_sender topic payload = specExtractSender payload)
      ∧ extract_sender "t" "\x7b\"client_id\": \"sensor-7\", \"x\": 1\x7d" = some "sensor-7"
      ∧ extract_sender "t" "\x7b\"x\":1\x7d" = none
      ∧ extract_sender "t" "not json" = none
      ∧ extract_sender "t" "" = none := by
  refine ⟨?_, extract_sender_eq_spec, rfl, rfl, rfl, rfl⟩
  intro topic topic' payload
  rw [extract_sender_eq_spec, extract_sender_eq_spec]

theorem scanKeys_isSome_iff (kvs : List (String × Json)) :
    ∀ ks : List String,
      (scanKeys ks kvs).isSome ↔ ∃ k ∈ ks, (dictLookup kvs k).isSome := by
  intro ks
  induction ks with
  | nil => simp [scanKeys]
  | cons k ks ih =>
    cases h : dictLookup kvs k with
    | none =>
      simp only [scanKeys, h, ih]
      constructor
      · rintro ⟨x, hx, hsome⟩
        exact ⟨x, List.mem_cons_of_mem k hx, hsome⟩
      · rintro ⟨x, hx, hsome⟩
        rcases List.mem_cons.mp hx with rfl | hx'
        · rw [h] at hsome
          simp at hsome
        · exact ⟨x, hx', hsome⟩
    | some v =>
      simp only [scanKeys, h]
      constructor
      · intro _
        exact ⟨k, List.mem_cons_self k ks, by rw [h]; rfl⟩
      · intro _
        rfl

/-- Claim C10: extract_sender tests key presence, not value truthiness: for
a payload parsing to a mapping, a sender is extracted exactly when some
candidate key is present, whatever its value; a candidate key mapped to
JSON null yields the sender string None and one mapped to false yields
False, never the no-sender result. -/
theorem extract_sender_presence_not_truthiness :
    (∀ (topic payload : String) (kvs : List (String × Json)),
        json_loads payload = some (Json.obj kvs) →
        ((extract_sender topic payload).isSome
          ↔ ∃ k ∈ candidateKeys, (dictLookup kvs k).isSome))
      ∧ extract_sender "t" "\x7b\"sender\": null\x7d" = some "None"
      ∧ extract_sender "t" "\x7b\"client_id\": false\x7d" = some "False" := by
  refine ⟨?_, rfl, rfl⟩
  intro topic payload kvs hj
  by_cases h : payload.isEmpty
  · have hp : payload = "" := (String.isEmpty_iff payload).mp h
    subst hp
    rw [show json_loads "" = none from rfl] at hj
    exact Option.noConfusion hj
  · simp only [extract_sender, if_neg h, hj]
    exact scanKeys_isSome_iff kvs candidateKeys

/-- Witness for C10: for the payload mapping sender to null, a sender is
extracted because the key sender is present among the candidates, even
though its value is null. -/
theorem extract_sender_presence_not_truthiness_witness :
    (extract_sender "t" "\x7b\"sender\": null\x7d").isSome
      ↔ ∃ k ∈ candidateKeys, (dictLookup [("sender", Json.null)] k).isSome :=
  extract_sender_presence_not_truthiness.1 "t" "\x7b\"sender\": null\x7d"
    [("sender", Json.null)] rfl

/-! ### Pipeline clocks (claim C4) -/

/-- Counterexample to claim C4 as stated: on a message handled with
wall-clock reading 100 and monotonic reading 0, the timestamp persisted for
the event is 100 while the timestamp fed to record (and so held in the
detector window) is 0; the two are not equal. record takes no timestamp
argument in the source — it reads time.monotonic() itself — so the persisted
receipt timestamp (datetime.now) is not what the detector receives. -/
theorem on_message_same_timestamp_counterexample :
    (on_message true loggerInit 100 0 ⟨"t", "", 0, false⟩).state.events.map
        (fun r => r.timestamp) = [100]
      ∧ (on_message true loggerInit 100 0 ⟨"t", "", 0, false⟩).state.detector.counts "t" = [0]
      ∧ (100 : ℚ) ≠ 0 := by
  refine ⟨rfl, ?_, by norm_num⟩
  show (LoopDetector.record LoopDetector.detectorInit "t" 0).1.counts "t" = [0]
  rw [LoopDetector.record_counts_self,
    LoopDetector.evict_eq_self_of_all_ge _ _ ?_]
  · rfl
  · intro x hx
    simp [LoopDetector.detectorInit] at hx
    subst hx
    norm_num [LoopDetector.WINDOW_SEC]

/-- Claim C4 as amended: the pipeline persists the wall-clock receipt
reading in the stored row, while the detector is fed the independent
monotonic-clock reading; the alert decision is exactly that of record on
the monotonic reading. -/
theorem on_message_clock_use (st : LoggerState) (wall mono : ℚ) (msg : InboundMsg) :
    (on_message true st wall mono msg).state.events
        = st.events ++ [{ timestamp := wall, topic := msg.topic,
                          sender := extract_sender msg.topic msg.payload,
                          payload := msg.payload, qos := msg.qos,
                          retained := if msg.retain then 1 else 0 }]
      ∧ (on_message true st wall mono msg).state.detector
          = (LoopDetector.record st.detector msg.topic mono).1
      ∧ (on_message true st wall mono msg).alert
          = (LoopDetector.record st.detector msg.topic mono).2 :=
  ⟨rfl, rfl, rfl⟩

/-! ### Storage failure handling (claim C5) -/

/-- Counterexample to claim C5 as stated: when the insert fails, the body
of the handler does surface a distinguishable error, but on_message
swallows it inside the handling of that message: the caller sees no raised
error, the state is unchanged, and only a log line records the failure. -/
theorem storage_failure_surfaced_counterexample :
    processMessage false loggerInit 100 0 ⟨"t", "", 0, false⟩
        = Except.error "storage failure"
      ∧ (on_message false loggerInit 100 0 ⟨"t", "", 0, false⟩).raised = none
      ∧ (on_message false loggerInit 100 0 ⟨"t", "", 0, false⟩).state.events = []
      ∧ (on_message false loggerInit 100 0 ⟨"t", "", 0, false⟩).logged
          = some "Error processing message: storage failure" :=
  ⟨rfl, rfl, rfl, rfl⟩

/-- Claim C5 as amended: a storage failure surfaces from the append as a
distinguishable error to on_message, but on_message catches every
exception: it logs one error line, propagates nothing to its caller,
leaves the state untouched (the event is not persisted and the detector is
not fed), and emits no alert. -/
theorem storage_failure_logged_not_raised (st : LoggerState) (wall mono : ℚ)
    (msg : InboundMsg) :
    processMessage false st wall mono msg = Except.error "storage failure"
      ∧ on_message false st wall mono msg
          = { state := st, alert := none, raised := none,
              logged := some "Error processing message: storage failure" } :=
  ⟨rfl, rfl⟩

/-! ### Topic pattern translation (claim C8) -/

/-- Claim C8: the translation maps each MQTT wildcard to the substring-style
SQL wildcard, and in a store holding the topic home/kitchen/temp both the
single-level pattern home/+/temp and the multi-level pattern home/# select
that row. -/
theorem topic_pattern_translation :
    mqttToSqlPattern "home/+/temp" = "home/%/temp"
      ∧ mqttToSqlPattern "home/#" = "home/%"
      ∧ topicFilter (some "home/+/temp") [kitchenRow] = [kitchenRow]
      ∧ topicFilter (some "home/#") [kitchenRow] = [kitchenRow] := by
  refine ⟨rfl, rfl, ?_, ?_⟩ <;> decide
